import Mathlib

/-!
Verification of the Mellstroy casino WebSocket server (`src/server.js`,
hardened revision).  The server's pure data manipulations — the bounded
history buffers, the sanitizers, the rate limiter, the nickname registry
and each message handler — are embedded as executable Lean definitions,
and the specification's testable properties are settled against them.

Strings are modelled as `List Char`; JavaScript `Map`s are modelled as
association lists (`Map.set` replaces in place or appends, `Map.get`
takes the first matching key, `Map.delete` filters the key out).
Timestamps (`Date.now()`) are modelled as integers; the non-determinism
of `uuidv4()` and `formatTime()` is modelled by passing the produced
value as an argument.
-/

namespace Mellcazik

abbrev Str := List Char

/-- `const MAX_CHAT = 40` -/
def MAX_CHAT : Nat := 40

/-- `const MAX_WINS = 50` -/
def MAX_WINS : Nat := 50

/-- `const RL_WINDOW = 10_000` (ms) -/
def RL_WINDOW : Int := 10000

/-- `const RL_MAX_CHAT = 6` -/
def RL_MAX_CHAT : Nat := 6

/-- `const MAX_CLIENTS = 500` -/
def MAX_CLIENTS : Nat := 500

/-- `function pushBounded(arr, item, max) { arr.push(item); if (arr.length > max) arr.shift(); }` -/
def pushBounded (arr : List α) (item : α) (mx : Nat) : List α :=
  let a := arr ++ [item]
  if mx < a.length then a.tail else a

/- ### The bounded-buffer law behind claim C1 -/

theorem foldl_pushBounded (C : Nat) (items : List α) :
    items.foldl (fun a i => pushBounded a i C) [] = items.drop (items.length - C) := by
  induction items using List.reverseRecOn with
  | nil => simp
  | append_singleton l x ih =>
    rw [List.foldl_append, ih]
    simp only [List.foldl_cons, List.foldl_nil, pushBounded]
    rcases Nat.lt_or_ge l.length C with hlt | hge
    · have h0 : l.length - C = 0 := Nat.sub_eq_zero_of_le (Nat.le_of_lt hlt)
      have h1 : (l ++ [x]).length - C = 0 := by
        simp only [List.length_append, List.length_singleton]
        omega
      have hlen : (l.drop (l.length - C) ++ [x]).length = l.length + 1 := by
        simp [h0]
      rw [if_neg (by omega), h0, h1]
      simp
    · rcases Nat.eq_zero_or_pos C with hC0 | hCpos
      · subst hC0
        have hlen : (l.drop (l.length - 0) ++ [x]).length = 1 := by simp
        rw [if_pos (by omega)]
        have : l.drop l.length = [] := by simp
        simp only [Nat.sub_zero] at *
        rw [this]
        simp
      · have hlen : (l.drop (l.length - C) ++ [x]).length = C + 1 := by
          simp only [List.length_append, List.length_drop, List.length_singleton]
          omega
        rw [if_pos (by omega)]
        have hne : l.drop (l.length - C) ≠ [] := by
          intro hd
          have := congrArg List.length hd
          simp only [List.length_drop, List.length_nil] at this
          omega
        rw [List.tail_append_of_ne_nil hne]
        have htail : (l.drop (l.length - C)).tail = l.drop (l.length - C + 1) := by
          rw [← List.drop_one, List.drop_drop]
        rw [htail]
        have hle : l.length - C + 1 ≤ l.length := by omega
        rw [show (l ++ [x]).length - C = l.length - C + 1 by
              simp only [List.length_append, List.length_singleton]; omega,
            List.drop_append_of_le_length hle]

theorem length_foldl_pushBounded (C : Nat) (items : List α) :
    (items.foldl (fun a i => pushBounded a i C) []).length = min items.length C := by
  rw [foldl_pushBounded]
  simp only [List.length_drop]
  omega

/- ### JavaScript values and string primitives -/

/-- A JavaScript value as far as the handlers inspect it: either a string
or a non-string (`undefined`, `null`, …), which every `typeof str !== 'string'`
guard maps to the empty result and which `x || default` replaces by the
default. -/
inductive JSVal where
  | str (s : Str)
  | undef
deriving DecidableEq

/-- JavaScript whitespace as used by `trim` and `\s` (the code points the
test inputs contain). -/
def isWS (c : Char) : Bool :=
  c = ' ' || c = Char.ofNat 9 || c = Char.ofNat 10 || c = Char.ofNat 13

/-- `String.prototype.trim` -/
def trim (s : Str) : Str :=
  ((s.dropWhile isWS).reverse.dropWhile isWS).reverse

/-- `String.prototype.replace(/c/g, rep)` for a single-character pattern. -/
def replaceChar (s : Str) (c : Char) (rep : Str) : Str :=
  s.flatMap (fun x => if x = c then rep else [x])

/-- `String.prototype.toLowerCase` on one character, for the alphabets the
server handles: ASCII `A`–`Z` (U+0041–U+005A) and Cyrillic `А`–`Я`
(U+0410–U+042F) map to their lowercase counterparts 32 code points higher,
and `Ё` (U+0401) maps to `ё` (U+0451). -/
def jsToLower (c : Char) : Char :=
  if 65 ≤ c.toNat ∧ c.toNat ≤ 90 then Char.ofNat (c.toNat + 32)
  else if 1040 ≤ c.toNat ∧ c.toNat ≤ 1071 then Char.ofNat (c.toNat + 32)
  else if c.toNat = 1025 then Char.ofNat 1105
  else c

/-- `String.prototype.toLowerCase`, modelled character-wise. -/
def lowerStr (s : Str) : Str := s.map jsToLower

/-- `String.prototype.replace(/\s+/g, ' ')`: collapse every whitespace run
to a single space.  The boolean records whether the previous character was
part of a whitespace run. -/
def collapseWS : Bool → Str → Str
  | _, [] => []
  | prevWS, c :: rest =>
    if isWS c then
      if prevWS then collapseWS true rest else ' ' :: collapseWS true rest
    else c :: collapseWS false rest

/-- `s.startsWith(p)` on list-strings. -/
def strStarts : Str → Str → Bool
  | _, [] => true
  | [], _ :: _ => false
  | c :: s, d :: p => c = d && strStarts s p

/-- `String.prototype.includes` (substring test). -/
def strIncludes : Str → Str → Bool
  | [], sub => sub.isEmpty
  | c :: rest, sub => strStarts (c :: rest) sub || strIncludes rest sub

/-- `function sanitize(str, maxLen = 200)`:
`if (typeof str !== 'string') return '';`
`return str.trim().slice(0, maxLen).replace(/</g,'&lt;').replace(/>/g,'&gt;').replace(/"/g,'&quot;').replace(/'/g,'&#39;');` -/
def sanitize (v : JSVal) (maxLen : Nat) : Str :=
  match v with
  | .undef => []
  | .str s =>
    replaceChar
      (replaceChar
        (replaceChar
          (replaceChar ((trim s).take maxLen) '<' ("&lt;".toList))
          '>' ("&gt;".toList))
        (Char.ofNat 34) ("&quot;".toList))
      (Char.ofNat 39) ("&#39;".toList)

/-- The characters stripped by `sanitizeNick`: `<ANGLE> " ' / \ <BACKTICK>` -/
def nickStrip (c : Char) : Bool :=
  c = '<' || c = '>' || c = Char.ofNat 34 || c = Char.ofNat 39 ||
  c = '/' || c = Char.ofNat 92 || c = Char.ofNat 96

/-- `function sanitizeNick(str)`:
`if (typeof str !== 'string') return '';`
`return str.trim().slice(0, 24).replace(/[<>"'/\\`]/g,'').replace(/\s+/g,' ').trim();` -/
def sanitizeNick (v : JSVal) : Str :=
  match v with
  | .undef => []
  | .str s => trim (collapseWS false (((trim s).take 24).filter (fun c => !nickStrip c)))

/-- `x || d` for a possibly-missing string argument (`data.game || 'Игра'`):
`undefined`/`null` and the empty string are falsy. -/
def jsOrDefault (v : JSVal) (d : Str) : JSVal :=
  match v with
  | .undef => .str d
  | .str s => if s.isEmpty then .str d else .str s

/-- `n.toLocaleString('en-US')` digit grouping, on the reversed digit list. -/
def groupRev : Str → Str
  | [] => []
  | [a] => [a]
  | [a, b] => [a, b]
  | [a, b, c] => [a, b, c]
  | a :: b :: c :: d :: rest => a :: b :: c :: ',' :: groupRev (d :: rest)

/-- `amount.toLocaleString('en-US')` for the (positive) win amounts. -/
def localeString (n : Int) : Str :=
  (groupRev (Nat.toDigits 10 n.toNat).reverse).reverse

/- ### Data model: sessions, history entries, outbound messages -/

/-- One socket in `wss.clients`, identified by an opaque key, with its
`readyState === WebSocket.OPEN` flag. -/
structure Conn where
  cid : Nat
  isOpen : Bool
deriving DecidableEq

/-- `clients.set(ws, { id: clientId, nickname: null, ip, registered: false })` -/
structure Client where
  id : Nat
  nickname : Option Str
  ip : Str
  registered : Bool
deriving DecidableEq

/-- Per-client rate-limit record `{ count, t }` in the `rateLimits` map. -/
structure RL where
  count : Nat
  t : Int
deriving DecidableEq

/-- Objects stored in `chatHistory` / `winHistory` (and broadcast as-is):
chat messages, win messages, and `system_message` announcements. -/
inductive Entry where
  | chatE (id : Nat) (clientId : Nat) (nickname : Option Str) (text : Str) (time : Str)
  | winE (clientId : Nat) (nickname : Option Str) (amount : Int) (game : Str) (time : Str)
  | sysE (text : Str) (time : Str)
deriving DecidableEq

/-- Outbound frames. -/
inductive Msg where
  | init (clientId : Nat) (chatH : List Entry) (winH : List Entry) (onlineCount : Nat)
  | register_ok (nickname : Str) (clientId : Nat)
  | register_error (message : Str)
  | error (message : Str)
  | entry (e : Entry)
  | online_count (count : Nat)
  | pong
deriving DecidableEq

/-- The shared mutable server state. -/
structure ServerState where
  conns : List Conn
  clients : List (Nat × Client)
  chatHistory : List Entry
  winHistory : List Entry
  rateLimits : List (Nat × RL)
deriving DecidableEq

/-- The effects of one handler invocation: the new state, the `sendTo(ws, …)`
replies to the triggering socket (in call order), the `broadcast(msg, excludeWs)`
calls, and the number of `scheduleOnlineBroadcast()` calls. -/
structure HOut where
  state : ServerState
  replies : List Msg
  broadcasts : List (Msg × Option Nat)
  schedules : Nat
deriving DecidableEq

/- ### JavaScript `Map` on association lists -/

/-- `Map.prototype.get` -/
def lookupA (m : List (Nat × α)) (k : Nat) : Option α :=
  match m with
  | [] => none
  | (k2, v) :: rest => if k2 = k then some v else lookupA rest k

/-- `Map.prototype.set`: replace the existing entry or append a new one. -/
def setA (m : List (Nat × α)) (k : Nat) (v : α) : List (Nat × α) :=
  match m with
  | [] => [(k, v)]
  | (k2, v2) :: rest => if k2 = k then (k2, v) :: rest else (k2, v2) :: setA rest k v

/-- `Map.prototype.delete` (keys are unique in a `Map`). -/
def delA (m : List (Nat × α)) (k : Nat) : List (Nat × α) :=
  m.filter (fun p => p.1 != k)

/- ### Helpers over the registry -/

/-- `getOnlineCount()`: the number of sockets with `readyState === OPEN`. -/
def getOnlineCount (conns : List Conn) : Nat :=
  (conns.filter (fun k => k.isOpen)).length

/-- The sockets a `broadcast(data, excludeWs)` call delivers to:
`ws !== excludeWs && ws.readyState === WebSocket.OPEN`. -/
def broadcastRecipients (conns : List Conn) (excl : Option Nat) : List Nat :=
  (conns.filter (fun k => (some k.cid != excl) && k.isOpen)).map Conn.cid

/-- The truthiness test `client.nickname && …` on an optional string. -/
def truthyNick : Option Str → Bool
  | some n => !n.isEmpty
  | none => false

/-- Template interpolation `${client.nickname}` (a `null` nickname prints
as the text `null`). -/
def showNick : Option Str → Str
  | some n => n
  | none => "null".toList

/-- The body of `isNickTaken`'s loop:
`c.nickname && c.nickname.toLowerCase() === low` where `low = nick.toLowerCase()`. -/
def nickMatches (c : Client) (low : Str) : Bool :=
  match c.nickname with
  | some n => !n.isEmpty && (lowerStr n == low)
  | none => false

/-- `function isNickTaken(nick, excludeId)` -/
def isNickTaken (cs : List (Nat × Client)) (nick : Str) (excludeId : Nat) : Bool :=
  cs.any (fun p => p.2.id != excludeId && nickMatches p.2 (lowerStr nick))

/-- `const BAD_NICKS = ['admin', 'moderator', 'система', 'system', 'server', 'bot']` -/
def BAD_NICKS : List Str :=
  ["admin".toList, "moderator".toList, "система".toList,
   "system".toList, "server".toList, "bot".toList]

/-- `function checkRate(clientId)`: look the record up, reset it when absent
or expired (`now - rl.t > RL_WINDOW`), then `return ++rl.count <= RL_MAX_CHAT`.
Returns the verdict and the updated map (the in-place `++rl.count` mutation
is visible in the map in every branch). -/
def checkRate (rls : List (Nat × RL)) (clientId : Nat) (now : Int) : Bool × List (Nat × RL) :=
  let rl0 : RL :=
    match lookupA rls clientId with
    | none => { count := 0, t := now }
    | some rl => if RL_WINDOW < now - rl.t then { count := 0, t := now } else rl
  let rl1 : RL := { rl0 with count := rl0.count + 1 }
  (decide (rl1.count ≤ RL_MAX_CHAT), setA rls clientId rl1)

/-- Iterated `checkRate` calls for one client at the given instants. -/
def runChecks (rls : List (Nat × RL)) (cid : Nat) : List Int → List Bool
  | [] => []
  | now :: rest =>
    let r := checkRate rls cid now
    r.1 :: runChecks r.2 cid rest

/- ### Handlers -/

/-- `arr.slice(-n)` for `n > 0`: the last `n` elements. -/
def lastN (n : Nat) (l : List α) : List α :=
  l.drop (l.length - n)

/-- The result of the `wss.on('connection', …)` handler: the new state, the
`sendTo` replies, an optional `ws.close(code, reason)` call, and the number
of `scheduleOnlineBroadcast()` calls. -/
structure ConnOut where
  state : ServerState
  replies : List Msg
  closed : Option (Nat × Str)
  schedules : Nat
deriving DecidableEq

/-- The `wss.on('connection')` handler.  The `ws` library has already added
the socket to `wss.clients` when the handler runs, so `st.conns` includes
the new socket.  `if (wss.clients.size > MAX_CLIENTS) { ws.close(1013,
'Server full'); return; }`; otherwise create the session, send the `init`
snapshot (`chatHistory.slice(-25)`, `winHistory.slice(-15)`) and schedule an
online-count broadcast. -/
def handleConnection (st : ServerState) (ws : Nat) (clientId : Nat) (ip : Str) : ConnOut :=
  if MAX_CLIENTS < st.conns.length then
    { state := st, replies := [], closed := some (1013, "Server full".toList), schedules := 0 }
  else
    let fresh : Client := { id := clientId, nickname := none, ip := ip, registered := false }
    let initMsg := Msg.init clientId (lastN 25 st.chatHistory) (lastN 15 st.winHistory)
      (getOnlineCount st.conns)
    { state := { st with clients := setA st.clients ws fresh },
      replies := [initMsg],
      closed := none,
      schedules := 1 }

/-- The `case 'register'` branch of the message handler. -/
def handleRegister (st : ServerState) (ws : Nat) (nickVal : JSVal) (time : Str) : HOut :=
  match lookupA st.clients ws with
  | none => { state := st, replies := [], broadcasts := [], schedules := 0 }
  | some client =>
    if client.registered then
      { state := st, replies := [], broadcasts := [], schedules := 0 }
    else
      let nick := sanitizeNick nickVal
      if nick.length < 2 then
        { state := st, replies := [Msg.register_error ("Минимум 2 символа".toList)],
          broadcasts := [], schedules := 0 }
      else if 24 < nick.length then
        { state := st, replies := [Msg.register_error ("Максимум 24 символа".toList)],
          broadcasts := [], schedules := 0 }
      else if isNickTaken st.clients nick client.id then
        { state := st, replies := [Msg.register_error ("Этот никнейм уже занят".toList)],
          broadcasts := [], schedules := 0 }
      else if BAD_NICKS.any (fun b => strIncludes (lowerStr nick) b) then
        { state := st, replies := [Msg.register_error ("Этот никнейм запрещён".toList)],
          broadcasts := [], schedules := 0 }
      else
        let client2 := { client with nickname := some nick, registered := true }
        let joinMsg := Entry.sysE ("🎰 ".toList ++ nick ++ " присоединился к казино!".toList) time
        { state := { st with clients := setA st.clients ws client2,
                             chatHistory := pushBounded st.chatHistory joinMsg MAX_CHAT },
          replies := [Msg.register_ok nick client.id],
          broadcasts := [(Msg.entry joinMsg, none)],
          schedules := 1 }

/-- The `case 'chat'` branch of the message handler.  `mid` is the
`uuidv4()` drawn for the message id, `now` is `Date.now()` inside
`checkRate`, `time` is `formatTime()`. -/
def handleChat (st : ServerState) (ws : Nat) (textVal : JSVal) (now : Int)
    (mid : Nat) (time : Str) : HOut :=
  match lookupA st.clients ws with
  | none => { state := st, replies := [], broadcasts := [], schedules := 0 }
  | some client =>
    if !client.registered then
      { state := st, replies := [Msg.error ("Сначала войдите".toList)],
        broadcasts := [], schedules := 0 }
    else
      let r := checkRate st.rateLimits client.id now
      let st2 := { st with rateLimits := r.2 }
      if !r.1 then
        { state := st2, replies := [Msg.error ("Слишком много сообщений".toList)],
          broadcasts := [], schedules := 0 }
      else
        let text := sanitize textVal 200
        if text.isEmpty then
          { state := st2, replies := [], broadcasts := [], schedules := 0 }
        else
          let msg := Entry.chatE mid client.id client.nickname text time
          { state := { st2 with chatHistory := pushBounded st2.chatHistory msg MAX_CHAT },
            replies := [], broadcasts := [(Msg.entry msg, none)], schedules := 0 }

/-- The big-win `system_message` text:
`` `🎉 ${client.nickname} выиграл $${amount.toLocaleString('en-US')} в ${game}!` `` -/
def bigWinText (nickname : Option Str) (amount : Int) (game : Str) : Str :=
  "🎉 ".toList ++ showNick nickname ++ " выиграл $".toList ++ localeString amount
    ++ " в ".toList ++ game ++ "!".toList

/-- The `case 'win'` branch of the message handler.  `amountVal` is
`Math.floor(Number(data.amount) || 0)` pre-computed on the numeric case
(`none` models a non-numeric `data.amount`, which `|| 0` turns into `0`). -/
def handleWin (st : ServerState) (ws : Nat) (amountVal : Option Int) (gameVal : JSVal)
    (time : Str) : HOut :=
  match lookupA st.clients ws with
  | none => { state := st, replies := [], broadcasts := [], schedules := 0 }
  | some client =>
    if !client.registered then
      { state := st, replies := [], broadcasts := [], schedules := 0 }
    else
      let amount : Int := amountVal.getD 0
      if decide (amount ≤ 0) || decide (1000000 < amount) then
        { state := st, replies := [], broadcasts := [], schedules := 0 }
      else
        let game := sanitize (jsOrDefault gameVal ("Игра".toList)) 40
        let win := Entry.winE client.id client.nickname amount game time
        let st2 := { st with winHistory := pushBounded st.winHistory win MAX_WINS }
        if decide (500 ≤ amount) then
          let sys := Entry.sysE (bigWinText client.nickname amount game) time
          { state := { st2 with chatHistory := pushBounded st2.chatHistory sys MAX_CHAT },
            replies := [],
            broadcasts := [(Msg.entry win, none), (Msg.entry sys, none)],
            schedules := 0 }
        else
          { state := st2, replies := [], broadcasts := [(Msg.entry win, none)], schedules := 0 }

/-- The `ws.on('close')` handler: announce the departure of a registered
session (`broadcast(bye, ws)`, excluding the closing socket), then
`rateLimits.delete(client.id)` and `clients.delete(ws)` and schedule an
online-count broadcast.  The `ws` library removes the socket from
`wss.clients`, modelled by filtering `conns`. -/
def handleClose (st : ServerState) (ws : Nat) (time : Str) : HOut :=
  let conns2 := st.conns.filter (fun k => k.cid != ws)
  match lookupA st.clients ws with
  | none => { state := { st with conns := conns2 }, replies := [], broadcasts := [], schedules := 1 }
  | some client =>
    let withBye :=
      if client.registered && truthyNick client.nickname then
        let bye := Entry.sysE ("👋 ".toList ++ showNick client.nickname
                     ++ " покинул казино".toList) time
        ({ st with chatHistory := pushBounded st.chatHistory bye MAX_CHAT },
         [((Msg.entry bye : Msg), (some ws : Option Nat))])
      else (st, [])
    let st3 := { withBye.1 with conns := conns2,
                                rateLimits := delA withBye.1.rateLimits client.id,
                                clients := delA withBye.1.clients ws }
    { state := st3, replies := [], broadcasts := withBye.2, schedules := 1 }

/- ### Lemmas about the association-list map -/

theorem lookupA_setA_self (m : List (Nat × α)) (k : Nat) (v : α) :
    lookupA (setA m k v) k = some v := by
  induction m with
  | nil => simp [setA, lookupA]
  | cons p rest ih =>
    obtain ⟨k2, v2⟩ := p
    by_cases h : k2 = k
    · simp [setA, lookupA, h]
    · simp [setA, lookupA, h, ih]

theorem mem_setA (m : List (Nat × α)) (k : Nat) (v : α) (p : Nat × α)
    (h : p ∈ setA m k v) : p = (k, v) ∨ p ∈ m := by
  induction m with
  | nil => simpa [setA] using h
  | cons q rest ih =>
    obtain ⟨k2, v2⟩ := q
    by_cases hk : k2 = k
    · subst hk
      rw [setA, if_pos rfl] at h
      rcases List.mem_cons.mp h with h1 | h1
      · exact Or.inl h1
      · exact Or.inr (List.mem_cons_of_mem _ h1)
    · rw [setA, if_neg hk] at h
      rcases List.mem_cons.mp h with h1 | h1
      · exact Or.inr (by simp [h1])
      · rcases ih h1 with h2 | h2
        · exact Or.inl h2
        · exact Or.inr (List.mem_cons_of_mem _ h2)

theorem lookupA_delA_self (m : List (Nat × α)) (k : Nat) :
    lookupA (delA m k) k = none := by
  induction m with
  | nil => simp [delA, lookupA]
  | cons p rest ih =>
    obtain ⟨k2, v2⟩ := p
    by_cases h : k2 = k
    · simpa [delA, h] using ih
    · simpa [delA, lookupA, h] using ih

theorem mem_delA (m : List (Nat × α)) (k : Nat) (p : Nat × α)
    (h : p ∈ delA m k) : p ∈ m ∧ p.1 ≠ k := by
  simp only [delA, List.mem_filter, bne_iff_ne, ne_eq] at h
  exact ⟨h.1, h.2⟩

/- ### Claim C1: bounded history buffers -/

/-- C1: for every sequence of appends through `pushBounded` on a buffer of
capacity `C` (`MAX_CHAT = 40` for chat, `MAX_WINS = 50` for wins), starting
from the empty buffer, the buffer holds exactly `min(count, C)` entries and
those entries are the `C` most recently appended ones in insertion order
(the `drop` of the older prefix — eviction is strictly oldest-first). -/
theorem claim_C1_bounded_buffers (items : List Entry) :
    (items.foldl (fun a i => pushBounded a i MAX_CHAT) []).length = min items.length MAX_CHAT
    ∧ items.foldl (fun a i => pushBounded a i MAX_CHAT) []
        = items.drop (items.length - MAX_CHAT)
    ∧ (items.foldl (fun a i => pushBounded a i MAX_WINS) []).length = min items.length MAX_WINS
    ∧ items.foldl (fun a i => pushBounded a i MAX_WINS) []
        = items.drop (items.length - MAX_WINS) :=
  ⟨length_foldl_pushBounded MAX_CHAT items, foldl_pushBounded MAX_CHAT items,
   length_foldl_pushBounded MAX_WINS items, foldl_pushBounded MAX_WINS items⟩

/- ### Claim C3: the rate limiter -/

theorem runChecks_in_window (cid : Nat) (t0 : Int) (c : Nat) :
    ∀ (ts : List Int) (rls : List (Nat × RL)),
      lookupA rls cid = some { count := c, t := t0 } →
      (∀ t ∈ ts, t - t0 ≤ RL_WINDOW) →
      runChecks rls cid ts = (List.range ts.length).map (fun i => decide (c + i + 1 ≤ RL_MAX_CHAT))
  | [], _, _, _ => rfl
  | now :: rest, rls, hl, hin => by
    have hwin : ¬ RL_WINDOW < now - t0 := not_lt.mpr (hin now (by simp))
    have hstep : checkRate rls cid now
        = (decide (c + 1 ≤ RL_MAX_CHAT), setA rls cid { count := c + 1, t := t0 }) := by
      simp [checkRate, hl, hwin]
    have hrest := runChecks_in_window cid t0 (c + 1) rest
      (setA rls cid { count := c + 1, t := t0 })
      (lookupA_setA_self ..)
      (fun t ht => hin t (by simp [ht]))
    simp only [runChecks, hstep, hrest, List.length_cons, List.range_succ_eq_map,
      List.map_cons, List.map_map]
    congr 1
    apply List.map_congr_left
    intro i _
    simp only [Function.comp_apply]
    have h1 : c + 1 + i + 1 = c + (i + 1) + 1 := by omega
    rw [h1]

/-- C3: with `RL_WINDOW = 10000` ms and `RL_MAX_CHAT = 6`, for a session with
no prior rate state whose seven chat attempts all fall within one window
(each at most 10 s after the first), the first six checks are allowed and
the seventh is denied; and from any existing rate record, the first check
made strictly more than 10 s after the window start is allowed and starts a
fresh window with count 1. -/
theorem claim_C3_rate_limiter (cid : Nat) (t0 : Int) (ts : List Int)
    (hlen : ts.length = 6) (hin : ∀ t ∈ ts, t - t0 ≤ RL_WINDOW) :
    runChecks [] cid (t0 :: ts) = [true, true, true, true, true, true, false]
    ∧ ∀ (rls : List (Nat × RL)) (rl : RL) (now : Int),
        lookupA rls cid = some rl → RL_WINDOW < now - rl.t →
        (checkRate rls cid now).1 = true
        ∧ lookupA (checkRate rls cid now).2 cid = some { count := 1, t := now } := by
  constructor
  · have hstep : checkRate [] cid t0
        = (decide (0 + 1 ≤ RL_MAX_CHAT), setA [] cid { count := 1, t := t0 }) := by
      simp [checkRate, lookupA]
    have hrest := runChecks_in_window cid t0 1 ts (setA [] cid { count := 1, t := t0 })
      (lookupA_setA_self ..) hin
    simp only [runChecks, hstep, hrest, hlen]
    decide
  · intro rls rl now hl hexp
    have hstep : checkRate rls cid now
        = (decide (0 + 1 ≤ RL_MAX_CHAT), setA rls cid { count := 1, t := now }) := by
      simp [checkRate, hl, hexp]
    rw [hstep]
    exact ⟨rfl, lookupA_setA_self ..⟩

/-- Witness for C3 at a concrete run: seven attempts at times 0..6 ms. -/
theorem claim_C3_rate_limiter_witness :
    runChecks [] 7 [0, 1, 2, 3, 4, 5, 6] = [true, true, true, true, true, true, false]
    ∧ (checkRate [(7, { count := 7, t := 0 })] 7 10001).1 = true :=
  ⟨(claim_C3_rate_limiter 7 0 [1, 2, 3, 4, 5, 6] (by decide) (by decide)).1,
   ((claim_C3_rate_limiter 7 0 [1, 2, 3, 4, 5, 6] (by decide) (by decide)).2
     [(7, { count := 7, t := 0 })] { count := 7, t := 0 } 10001 (by decide) (by decide)).1⟩

/- ### Claim C2: case-insensitive nickname uniqueness -/

theorem length_lowerStr (s : Str) : (lowerStr s).length = s.length := by
  simp [lowerStr]

/-- C2: if session A is registered with nickname `nickN` and session B is
unregistered, then a `register` attempt by B whose sanitized nickname equals
`nickN` up to letter case is answered with the duplicate-nickname error and
leaves the whole state — in particular B's session, still unregistered with
no nickname — unchanged. -/
theorem claim_C2_nick_uniqueness (st : ServerState) (wsA wsB : Nat) (cA cB : Client)
    (nickN : Str) (raw : JSVal) (time : Str)
    (hA : (wsA, cA) ∈ st.clients) (hAnick : cA.nickname = some nickN)
    (hB : lookupA st.clients wsB = some cB) (hBreg : cB.registered = false)
    (hid : cA.id ≠ cB.id)
    (hlen2 : 2 ≤ nickN.length) (hlen24 : nickN.length ≤ 24)
    (hmatch : lowerStr (sanitizeNick raw) = lowerStr nickN) :
    handleRegister st wsB raw time
      = { state := st, replies := [Msg.register_error ("Этот никнейм уже занят".toList)],
          broadcasts := [], schedules := 0 } := by
  have hlen : (sanitizeNick raw).length = nickN.length := by
    have := congrArg List.length hmatch
    simpa [length_lowerStr] using this
  have htaken : isNickTaken st.clients (sanitizeNick raw) cB.id = true := by
    unfold isNickTaken
    rw [List.any_eq_true]
    refine ⟨(wsA, cA), hA, ?_⟩
    rw [Bool.and_eq_true]
    refine ⟨by simpa [bne_iff_ne] using hid, ?_⟩
    unfold nickMatches
    rw [hAnick, Bool.and_eq_true]
    constructor
    · cases nickN with
      | nil => simp at hlen2
      | cons a l => simp [List.isEmpty]
    · rw [beq_iff_eq, hmatch]
  simp only [handleRegister, hB, hBreg, Bool.false_eq_true, if_false,
    if_neg (by omega : ¬ (sanitizeNick raw).length < 2),
    if_neg (by omega : ¬ 24 < (sanitizeNick raw).length), htaken, if_true]

/-- Concrete two-session state for the C2 witness: client 10 is registered
as the Cyrillic `Алекс` on socket 1, client 20 is unregistered on socket 2. -/
def stC2 : ServerState where
  conns := []
  clients := [(1, ⟨10, some ("Алекс".toList), [], true⟩), (2, ⟨20, none, [], false⟩)]
  chatHistory := []
  winHistory := []
  rateLimits := []

/-- Witness for C2: A is registered as `Алекс`, B attempts the Cyrillic
upper-case variant `АЛЕКС` and is rejected as a duplicate. -/
theorem claim_C2_nick_uniqueness_witness :
    handleRegister stC2 2 (JSVal.str ("АЛЕКС".toList)) []
      = { state := stC2, replies := [Msg.register_error ("Этот никнейм уже занят".toList)],
          broadcasts := [], schedules := 0 } :=
  claim_C2_nick_uniqueness stC2 1 2 ⟨10, some ("Алекс".toList), [], true⟩
    ⟨20, none, [], false⟩ ("Алекс".toList) (JSVal.str ("АЛЕКС".toList)) []
    (by simp [stC2]) rfl rfl rfl (by decide) (by decide) (by decide) (by decide)

/- ### Claim C4: registration is idempotent -/

/-- C4: a `register` frame from a session that is already registered is
silently ignored: no error reply, no ok reply, no broadcast, no scheduled
online-count update, and the state — nickname, registered flag, both
history buffers, rate limits — is exactly as before. -/
theorem claim_C4_register_idempotent (st : ServerState) (ws : Nat) (c : Client)
    (v : JSVal) (time : Str)
    (h : lookupA st.clients ws = some c) (hreg : c.registered = true) :
    handleRegister st ws v time = { state := st, replies := [], broadcasts := [], schedules := 0 } := by
  simp [handleRegister, h, hreg]

/-- Concrete one-session state for the C4 witness: client 10 is registered
as `Alex` on socket 1. -/
def stC4 : ServerState where
  conns := [⟨1, true⟩]
  clients := [(1, ⟨10, some ("Alex".toList), [], true⟩)]
  chatHistory := []
  winHistory := []
  rateLimits := []

/-- Witness for C4 at a concrete registered session. -/
theorem claim_C4_register_idempotent_witness :
    handleRegister stC4 1 (JSVal.str ("Bob".toList)) []
      = { state := stC4, replies := [], broadcasts := [], schedules := 0 } :=
  claim_C4_register_idempotent stC4 1 ⟨10, some ("Alex".toList), [], true⟩
    (JSVal.str ("Bob".toList)) [] rfl rfl

/- ### Claim C5: win amount validation and the big-win announcement -/

/-- The `WinEntry` the win handler appends and broadcasts. -/
def winEntryOf (c : Client) (a : Int) (gameVal : JSVal) (time : Str) : Entry :=
  Entry.winE c.id c.nickname a (sanitize (jsOrDefault gameVal ("Игра".toList)) 40) time

/-- The big-win system `ChatEntry` the win handler appends and broadcasts. -/
def bigWinEntryOf (c : Client) (a : Int) (gameVal : JSVal) (time : Str) : Entry :=
  Entry.sysE (bigWinText c.nickname a (sanitize (jsOrDefault gameVal ("Игра".toList)) 40)) time

/-- C5: for a `win` frame from a registered session: a non-positive amount
(a non-numeric amount is coerced to 0) is silently dropped — no `WinEntry`,
no broadcast, no reply; an amount in `(0, 1000000]` is accepted, appending
exactly one `WinEntry` to the win buffer and broadcasting exactly it when the
amount is below 500; and when the accepted amount is at least 500, exactly
one additional system `ChatEntry` is appended to the chat buffer and
broadcast after the `WinEntry`. -/
theorem claim_C5_win_validation (st : ServerState) (ws : Nat) (c : Client)
    (amountVal : Option Int) (gameVal : JSVal) (time : Str)
    (h : lookupA st.clients ws = some c) (hreg : c.registered = true) :
    (amountVal.getD 0 ≤ 0 →
      handleWin st ws amountVal gameVal time
        = { state := st, replies := [], broadcasts := [], schedules := 0 })
    ∧ (∀ a : Int, amountVal = some a → 0 < a → a ≤ 1000000 → a < 500 →
      handleWin st ws amountVal gameVal time
        = { state := { st with
                winHistory := pushBounded st.winHistory (winEntryOf c a gameVal time) MAX_WINS },
            replies := [], broadcasts := [(Msg.entry (winEntryOf c a gameVal time), none)],
            schedules := 0 })
    ∧ (∀ a : Int, amountVal = some a → 0 < a → a ≤ 1000000 → 500 ≤ a →
      handleWin st ws amountVal gameVal time
        = { state := { st with
                winHistory := pushBounded st.winHistory (winEntryOf c a gameVal time) MAX_WINS,
                chatHistory :=
                  pushBounded st.chatHistory (bigWinEntryOf c a gameVal time) MAX_CHAT },
            replies := [],
            broadcasts := [(Msg.entry (winEntryOf c a gameVal time), none),
              (Msg.entry (bigWinEntryOf c a gameVal time), none)],
            schedules := 0 }) := by
  refine ⟨fun ha => ?_, fun a hav h0 hcap hsmall => ?_, fun a hav h0 hcap hbig => ?_⟩
  · simp [handleWin, h, hreg, ha]
  · subst hav
    simp [handleWin, h, hreg, winEntryOf,
      show ¬ a ≤ 0 by omega, show ¬ (1000000 : Int) < a by omega, show ¬ (500 : Int) ≤ a by omega]
  · subst hav
    simp [handleWin, h, hreg, winEntryOf, bigWinEntryOf,
      show ¬ a ≤ 0 by omega, show ¬ (1000000 : Int) < a by omega, hbig]

/-- Concrete state for the C5 witness: client 10 registered as `Alex` on
socket 1. -/
def stC5 : ServerState where
  conns := [⟨1, true⟩]
  clients := [(1, ⟨10, some ("Alex".toList), [], true⟩)]
  chatHistory := []
  winHistory := []
  rateLimits := []

/-- Witness for C5: amount 0 dropped; amount 100 accepted without a system
message; amount 600 accepted with the extra big-win system message. -/
theorem claim_C5_win_validation_witness :
    handleWin stC5 1 (some 0) JSVal.undef []
      = { state := stC5, replies := [], broadcasts := [], schedules := 0 }
    ∧ handleWin stC5 1 (some 100) JSVal.undef []
      = { state := { stC5 with winHistory := [winEntryOf ⟨10, some ("Alex".toList), [], true⟩ 100 JSVal.undef []] },
          replies := [],
          broadcasts := [(Msg.entry (winEntryOf ⟨10, some ("Alex".toList), [], true⟩ 100 JSVal.undef []), none)],
          schedules := 0 }
    ∧ handleWin stC5 1 (some 600) JSVal.undef []
      = { state := { stC5 with
            winHistory := [winEntryOf ⟨10, some ("Alex".toList), [], true⟩ 600 JSVal.undef []],
            chatHistory := [bigWinEntryOf ⟨10, some ("Alex".toList), [], true⟩ 600 JSVal.undef []] },
          replies := [],
          broadcasts := [(Msg.entry (winEntryOf ⟨10, some ("Alex".toList), [], true⟩ 600 JSVal.undef []), none),
            (Msg.entry (bigWinEntryOf ⟨10, some ("Alex".toList), [], true⟩ 600 JSVal.undef []), none)],
          schedules := 0 } := by
  refine ⟨?_, ?_, ?_⟩
  · exact (claim_C5_win_validation stC5 1 ⟨10, some ("Alex".toList), [], true⟩
      (some 0) JSVal.undef [] rfl rfl).1 (by decide)
  · have := (claim_C5_win_validation stC5 1 ⟨10, some ("Alex".toList), [], true⟩
      (some 100) JSVal.undef [] rfl rfl).2.1 100 rfl (by decide) (by decide) (by decide)
    simpa [stC5, pushBounded, MAX_WINS] using this
  · have := (claim_C5_win_validation stC5 1 ⟨10, some ("Alex".toList), [], true⟩
      (some 600) JSVal.undef [] rfl rfl).2.2 600 rfl (by decide) (by decide) (by decide)
    simpa [stC5, pushBounded, MAX_WINS, MAX_CHAT] using this

/- ### Claim C6: the hard connection cap -/

/-- C6: the connection handler refuses a new socket exactly when the number
of sockets in `wss.clients` exceeds `MAX_CLIENTS = 500`, closing it with the
distinct code `1013 / Server full`; a refused socket is never added to the
session registry and receives no `init` snapshot. -/
theorem claim_C6_connection_cap (st : ServerState) (ws clientId : Nat) (ip : Str) :
    ((handleConnection st ws clientId ip).closed = some (1013, "Server full".toList)
      ↔ MAX_CLIENTS < st.conns.length)
    ∧ (MAX_CLIENTS < st.conns.length →
      (handleConnection st ws clientId ip).state = st
      ∧ (handleConnection st ws clientId ip).replies = []) := by
  unfold handleConnection
  by_cases hc : MAX_CLIENTS < st.conns.length
  · simp [hc]
  · simp [hc]

/-- A state with 501 sockets for the C6 witness. -/
def stC6 : ServerState where
  conns := List.replicate 501 ⟨0, true⟩
  clients := []
  chatHistory := []
  winHistory := []
  rateLimits := []

/-- Witness for C6: with 501 connected sockets, connection 9 is refused with
`1013 / Server full`, no session is created and no `init` is sent. -/
theorem claim_C6_connection_cap_witness :
    (handleConnection stC6 9 77 []).closed = some (1013, "Server full".toList)
    ∧ (handleConnection stC6 9 77 []).state = stC6
    ∧ (handleConnection stC6 9 77 []).replies = [] := by
  have hlen : MAX_CLIENTS < stC6.conns.length := by
    show MAX_CLIENTS < (List.replicate 501 (⟨0, true⟩ : Conn)).length
    rw [List.length_replicate]
    norm_num [MAX_CLIENTS]
  have h := claim_C6_connection_cap stC6 9 77 []
  exact ⟨h.1.mpr hlen, (h.2 hlen).1, (h.2 hlen).2⟩

/- ### Claim C7: the sanitizer (corrected) -/

/-- The characters the sanitizer escapes. -/
def bannedChar (c : Char) : Bool :=
  c = '<' || c = '>' || c = Char.ofNat 34 || c = Char.ofNat 39

/-- The per-character HTML-entity escape performed (sequentially) by
`sanitize`. -/
def escapeChar (c : Char) : Str :=
  if c = '<' then "&lt;".toList
  else if c = '>' then "&gt;".toList
  else if c = Char.ofNat 34 then "&quot;".toList
  else if c = Char.ofNat 39 then "&#39;".toList
  else [c]

/-- Character-wise escaping of a whole string. -/
def escapeStr (s : Str) : Str := s.flatMap escapeChar

theorem replaceChar_append (s t : Str) (c : Char) (rep : Str) :
    replaceChar (s ++ t) c rep = replaceChar s c rep ++ replaceChar t c rep := by
  simp [replaceChar]

/-- The four sequential `replace` calls of `sanitize` equal one
character-wise escape pass. -/
theorem sanitize_eq_escape (s : Str) (maxLen : Nat) :
    sanitize (JSVal.str s) maxLen = escapeStr ((trim s).take maxLen) := by
  show replaceChar (replaceChar (replaceChar (replaceChar ((trim s).take maxLen)
    '<' ("&lt;".toList)) '>' ("&gt;".toList)) (Char.ofNat 34) ("&quot;".toList))
    (Char.ofNat 39) ("&#39;".toList) = escapeStr ((trim s).take maxLen)
  generalize (trim s).take maxLen = u
  induction u with
  | nil => rfl
  | cons x rest ih =>
    have hsplit : (x :: rest : Str) = [x] ++ rest := rfl
    rw [hsplit, replaceChar_append, replaceChar_append, replaceChar_append,
      replaceChar_append, ih]
    have hhead : replaceChar (replaceChar (replaceChar (replaceChar [x]
        '<' ("&lt;".toList)) '>' ("&gt;".toList)) (Char.ofNat 34) ("&quot;".toList))
        (Char.ofNat 39) ("&#39;".toList) = escapeChar x := by
      by_cases h1 : x = '<'
      · subst h1; decide
      · by_cases h2 : x = '>'
        · subst h2; decide
        · by_cases h3 : x = Char.ofNat 34
          · subst h3; decide
          · by_cases h4 : x = Char.ofNat 39
            · subst h4; decide
            · simp [replaceChar, escapeChar, h1, h2, h3, h4]
    rw [hhead]
    rfl

theorem length_escapeChar_le (c : Char) : (escapeChar c).length ≤ 6 := by
  unfold escapeChar
  split_ifs <;> simp

theorem escapeChar_no_banned (c : Char) : (escapeChar c).all (fun x => !bannedChar x) = true := by
  unfold escapeChar
  split_ifs with h1 h2 h3 h4
  · decide
  · decide
  · decide
  · decide
  · simp [bannedChar, h1, h2, h3, h4]

theorem length_escapeStr_le (s : Str) : (escapeStr s).length ≤ 6 * s.length := by
  induction s with
  | nil => simp [escapeStr]
  | cons c rest ih =>
    have h := length_escapeChar_le c
    simp only [escapeStr, List.flatMap_cons, List.length_append, List.length_cons] at *
    omega

theorem escapeStr_no_banned (s : Str) : (escapeStr s).all (fun x => !bannedChar x) = true := by
  induction s with
  | nil => rfl
  | cons c rest ih =>
    simp only [escapeStr, List.flatMap_cons, List.all_append] at *
    rw [Bool.and_eq_true]
    exact ⟨escapeChar_no_banned c, ih⟩

set_option maxRecDepth 4000 in
/-- Counterexample to C7 as stated: `sanitize` escapes *after* truncating,
so 51 `<` characters pass the 200-character truncation untouched and then
expand to 204 characters — the output exceeds `maxLen`; and internal
whitespace runs are not collapsed by `sanitize` (only `sanitizeNick`
collapses them): two internal spaces survive. -/
theorem claim_C7_counterexample :
    ¬ ((sanitize (JSVal.str (List.replicate 51 '<')) 200).length ≤ 200)
    ∧ sanitize (JSVal.str ("a  b".toList)) 200 ≠ "a b".toList := by
  constructor
  · decide
  · decide

/-- C7 as amended: for every string input, `sanitize(raw, maxLen)` returns
the trimmed input truncated to `maxLen` characters and *then* escaped, each
of the four markup characters becoming its HTML entity — so the result
contains none of those characters and has length at most `6 * maxLen`
(it may exceed `maxLen`); internal whitespace is preserved, not collapsed;
and for every non-string input both `sanitize` and `sanitizeNick` return an
empty result. -/
theorem claim_C7_sanitizer_amended (raw : Str) (maxLen : Nat) :
    sanitize (JSVal.str raw) maxLen = escapeStr ((trim raw).take maxLen)
    ∧ (sanitize (JSVal.str raw) maxLen).length ≤ 6 * maxLen
    ∧ (sanitize (JSVal.str raw) maxLen).all (fun x => !bannedChar x) = true
    ∧ sanitize JSVal.undef maxLen = []
    ∧ sanitizeNick JSVal.undef = [] := by
  have he := sanitize_eq_escape raw maxLen
  refine ⟨he, ?_, ?_, rfl, rfl⟩
  · rw [he]
    calc (escapeStr ((trim raw).take maxLen)).length
        ≤ 6 * ((trim raw).take maxLen).length := length_escapeStr_le _
      _ ≤ 6 * maxLen := by
          have := List.length_take_le maxLen (trim raw)
          omega
  · rw [he]
    exact escapeStr_no_banned _

/- ### Claim C8: chat error handling (corrected) -/

/-- A registered session whose rate window already holds 6 messages. -/
def stC8a : ServerState where
  conns := [⟨1, true⟩]
  clients := [(1, ⟨10, some ("Alex".toList), [], true⟩)]
  chatHistory := []
  winHistory := []
  rateLimits := [(10, ⟨6, 0⟩)]

/-- A registered session with no rate state yet. -/
def stC8b : ServerState where
  conns := [⟨1, true⟩]
  clients := [(1, ⟨10, some ("Alex".toList), [], true⟩)]
  chatHistory := []
  winHistory := []
  rateLimits := []

set_option maxRecDepth 8000 in
/-- Counterexample to C8 as stated: (i) a rate-denied chat does answer with
the error reply, but the state is *not* unchanged — the failed check has
incremented the rate counter; (ii) a 201-character chat is *not* silently
dropped — the hardened handler has no oversize check, the text is truncated
to 200 characters by `sanitize` and the message is appended and broadcast. -/
theorem claim_C8_counterexample :
    ((handleChat stC8a 1 (JSVal.str ("hi".toList)) 0 99 []).replies
        = [Msg.error ("Слишком много сообщений".toList)]
      ∧ (handleChat stC8a 1 (JSVal.str ("hi".toList)) 0 99 []).state ≠ stC8a)
    ∧ ((handleChat stC8b 1 (JSVal.str (List.replicate 201 'a')) 0 99 []).state.chatHistory
        ≠ stC8b.chatHistory
      ∧ (handleChat stC8b 1 (JSVal.str (List.replicate 201 'a')) 0 99 []).broadcasts ≠ []) := by
  exact ⟨⟨by decide, by decide⟩, by decide, by decide⟩

/-- C8 as amended: a chat from an unregistered session gets an error reply
and changes nothing; a chat from a registered session denied by the rate
limiter gets an error reply and changes nothing *except* the rate-limit
record already consumed by the failed check; a chat whose sanitized text is
empty is silently dropped (no entry, no broadcast, no reply — the rate
check is still consumed); and text longer than 200 characters is not
dropped: it is truncated to its first 200 characters (after trimming) by
`sanitize`, escaped, and processed normally. -/
theorem claim_C8_chat_errors_amended (st : ServerState) (ws : Nat) (c : Client)
    (tv : JSVal) (now : Int) (mid : Nat) (time : Str)
    (h : lookupA st.clients ws = some c) :
    (c.registered = false →
      handleChat st ws tv now mid time
        = { state := st, replies := [Msg.error ("Сначала войдите".toList)],
            broadcasts := [], schedules := 0 })
    ∧ (c.registered = true → (checkRate st.rateLimits c.id now).1 = false →
      handleChat st ws tv now mid time
        = { state := { st with rateLimits := (checkRate st.rateLimits c.id now).2 },
            replies := [Msg.error ("Слишком много сообщений".toList)],
            broadcasts := [], schedules := 0 })
    ∧ (c.registered = true → (checkRate st.rateLimits c.id now).1 = true →
        sanitize tv 200 = [] →
      handleChat st ws tv now mid time
        = { state := { st with rateLimits := (checkRate st.rateLimits c.id now).2 },
            replies := [], broadcasts := [], schedules := 0 })
    ∧ (∀ s : Str, tv = JSVal.str s → c.registered = true →
        (checkRate st.rateLimits c.id now).1 = true → sanitize tv 200 ≠ [] →
      handleChat st ws tv now mid time
        = { state := { st with
                rateLimits := (checkRate st.rateLimits c.id now).2,
                chatHistory := pushBounded st.chatHistory
                  (Entry.chatE mid c.id c.nickname (escapeStr ((trim s).take 200)) time)
                  MAX_CHAT },
            replies := [],
            broadcasts := [(Msg.entry
              (Entry.chatE mid c.id c.nickname (escapeStr ((trim s).take 200)) time), none)],
            schedules := 0 }) := by
  refine ⟨fun hreg => ?_, fun hreg hden => ?_, fun hreg hok hemp => ?_,
    fun s hs hreg hok hne => ?_⟩
  · simp [handleChat, h, hreg]
  · simp [handleChat, h, hreg, hden]
  · have : (sanitize tv 200).isEmpty = true := by rw [hemp]; rfl
    simp [handleChat, h, hreg, hok, this]
  · have hemp : (sanitize tv 200).isEmpty = false := by
      cases hx : sanitize tv 200 with
      | nil => exact absurd hx hne
      | cons a l => rfl
    have htext : sanitize tv 200 = escapeStr ((trim s).take 200) := by
      rw [hs]; exact sanitize_eq_escape s 200
    rw [← htext]
    simp [handleChat, h, hreg, hok, hemp]

/-- Witness for C8 (amended) at concrete sessions: the rate-denied branch
and the long-text branch. -/
theorem claim_C8_chat_errors_amended_witness :
    handleChat stC8a 1 (JSVal.str ("hi".toList)) 0 99 []
      = { state := { stC8a with rateLimits := [(10, ⟨7, 0⟩)] },
          replies := [Msg.error ("Слишком много сообщений".toList)],
          broadcasts := [], schedules := 0 }
    ∧ handleChat stC8b 1 (JSVal.str ("ok".toList)) 0 99 []
      = { state := { stC8b with
            rateLimits := [(10, ⟨1, 0⟩)],
            chatHistory := [Entry.chatE 99 10 (some ("Alex".toList)) ("ok".toList) []] },
          replies := [],
          broadcasts := [(Msg.entry
            (Entry.chatE 99 10 (some ("Alex".toList)) ("ok".toList) []), none)],
          schedules := 0 } := by
  constructor
  · have := (claim_C8_chat_errors_amended stC8a 1 ⟨10, some ("Alex".toList), [], true⟩
      (JSVal.str ("hi".toList)) 0 99 [] rfl).2.1 rfl (by decide)
    rw [this]
    decide
  · have := (claim_C8_chat_errors_amended stC8b 1 ⟨10, some ("Alex".toList), [], true⟩
      (JSVal.str ("ok".toList)) 0 99 [] rfl).2.2.2 ("ok".toList) rfl rfl (by decide) (by decide)
    rw [this]
    decide

/- ### Claim C9: disconnect of a registered session -/

/-- The departure announcement built by the close handler. -/
def byeEntryOf (nick : Str) (time : Str) : Entry :=
  Entry.sysE ("👋 ".toList ++ nick ++ " покинул казино".toList) time

theorem handleClose_spec (st : ServerState) (ws : Nat) (c : Client) (nick : Str) (time : Str)
    (h : lookupA st.clients ws = some c) (hreg : c.registered = true)
    (hnick : c.nickname = some nick) (hne : nick ≠ []) :
    handleClose st ws time
      = { state := { st with
              conns := st.conns.filter (fun k => k.cid != ws),
              chatHistory := pushBounded st.chatHistory (byeEntryOf nick time) MAX_CHAT,
              rateLimits := delA st.rateLimits c.id,
              clients := delA st.clients ws },
          replies := [], broadcasts := [(Msg.entry (byeEntryOf nick time), some ws)],
          schedules := 1 } := by
  have hemp : nick.isEmpty = false := by
    cases nick with
    | nil => exact absurd rfl hne
    | cons a l => rfl
  simp [handleClose, h, hreg, truthyNick, hnick, hemp, showNick, byeEntryOf]

theorem mem_broadcastRecipients (conns : List Conn) (excl : Option Nat) (k : Conn)
    (hk : k ∈ conns) (hopen : k.isOpen = true) (hne : some k.cid ≠ excl) :
    k.cid ∈ broadcastRecipients conns excl := by
  unfold broadcastRecipients
  apply List.mem_map_of_mem
  rw [List.mem_filter]
  refine ⟨hk, ?_⟩
  rw [Bool.and_eq_true]
  exact ⟨by simpa [bne_iff_ne] using hne, hopen⟩

theorem not_mem_broadcastRecipients_self (conns : List Conn) (ws : Nat) :
    ws ∉ broadcastRecipients conns (some ws) := by
  unfold broadcastRecipients
  intro hmem
  rcases List.mem_map.mp hmem with ⟨k, hk, hcid⟩
  rcases List.mem_filter.mp hk with ⟨_, hcond⟩
  rw [Bool.and_eq_true] at hcond
  rcases hcond with ⟨hbne, _⟩
  rw [bne_iff_ne] at hbne
  exact hbne (by rw [hcid])

/-- A successful `register` transaction (every guard passes). -/
theorem handleRegister_success (st : ServerState) (ws : Nat) (c : Client) (raw : JSVal)
    (time : Str)
    (h : lookupA st.clients ws = some c) (hreg : c.registered = false)
    (hlen2 : 2 ≤ (sanitizeNick raw).length) (hlen24 : (sanitizeNick raw).length ≤ 24)
    (htaken : isNickTaken st.clients (sanitizeNick raw) c.id = false)
    (hbad : (BAD_NICKS.any fun b => strIncludes (lowerStr (sanitizeNick raw)) b) = false) :
    handleRegister st ws raw time
      = { state := { st with
              clients := setA st.clients ws
                { c with nickname := some (sanitizeNick raw), registered := true },
              chatHistory := pushBounded st.chatHistory
                (Entry.sysE ("🎰 ".toList ++ sanitizeNick raw
                  ++ " присоединился к казино!".toList) time) MAX_CHAT },
          replies := [Msg.register_ok (sanitizeNick raw) c.id],
          broadcasts := [(Msg.entry (Entry.sysE ("🎰 ".toList ++ sanitizeNick raw
            ++ " присоединился к казино!".toList) time), none)],
          schedules := 1 } := by
  simp only [handleRegister, h, hreg, Bool.false_eq_true, if_false,
    if_neg (by omega : ¬ (sanitizeNick raw).length < 2),
    if_neg (by omega : ¬ 24 < (sanitizeNick raw).length), htaken, hbad]

/-- C9: when a registered session with nickname `nick` disconnects, exactly
one departure system message is appended to the chat buffer, it is broadcast
excluding the departing socket — delivered to every other open socket, never
to the departing one — the session entry and its rate-limit record are
deleted, and a later freshly admitted session can successfully register the
very same nickname (provided no other session still matches it). -/
theorem claim_C9_disconnect (st : ServerState) (ws : Nat) (c : Client) (nick : Str)
    (time : Str)
    (h : lookupA st.clients ws = some c) (hreg : c.registered = true)
    (hnick : c.nickname = some nick) (hne : nick ≠ []) :
    (handleClose st ws time).state.chatHistory
        = pushBounded st.chatHistory (byeEntryOf nick time) MAX_CHAT
    ∧ (handleClose st ws time).broadcasts = [(Msg.entry (byeEntryOf nick time), some ws)]
    ∧ ws ∉ broadcastRecipients st.conns (some ws)
    ∧ (∀ k : Conn, k ∈ st.conns → k.isOpen = true → k.cid ≠ ws →
        k.cid ∈ broadcastRecipients st.conns (some ws))
    ∧ lookupA (handleClose st ws time).state.clients ws = none
    ∧ lookupA (handleClose st ws time).state.rateLimits c.id = none
    ∧ (∀ (wsB idB : Nat) (ipB : Str) (rawB : JSVal) (time2 : Str),
        sanitizeNick rawB = nick →
        2 ≤ nick.length → nick.length ≤ 24 →
        (BAD_NICKS.any fun b => strIncludes (lowerStr nick) b) = false →
        (∀ p ∈ st.clients, p.1 ≠ ws → nickMatches p.2 (lowerStr nick) = false) →
        (handleRegister { (handleClose st ws time).state with
            clients := setA (handleClose st ws time).state.clients wsB
              ⟨idB, none, ipB, false⟩ } wsB rawB time2).replies
          = [Msg.register_ok nick idB]
        ∧ lookupA (handleRegister { (handleClose st ws time).state with
            clients := setA (handleClose st ws time).state.clients wsB
              ⟨idB, none, ipB, false⟩ } wsB rawB time2).state.clients wsB
          = some ⟨idB, some nick, ipB, true⟩) := by
  have hspec := handleClose_spec st ws c nick time h hreg hnick hne
  refine ⟨by rw [hspec], by rw [hspec], not_mem_broadcastRecipients_self st.conns ws,
    fun k hk hopen hkne => mem_broadcastRecipients st.conns (some ws) k hk hopen
      (by simpa using hkne),
    by rw [hspec]; exact lookupA_delA_self st.clients ws,
    by rw [hspec]; exact lookupA_delA_self st.rateLimits c.id,
    fun wsB idB ipB rawB time2 hsan hl2 hl24 hbad huniq => ?_⟩
  have hclients : (handleClose st ws time).state.clients = delA st.clients ws := by
    rw [hspec]
  have hfresh : lookupA (setA (handleClose st ws time).state.clients wsB
      ⟨idB, none, ipB, false⟩) wsB = some ⟨idB, none, ipB, false⟩ :=
    lookupA_setA_self ..
  have htaken : isNickTaken (setA (handleClose st ws time).state.clients wsB
      ⟨idB, none, ipB, false⟩) (sanitizeNick rawB) idB = false := by
    rw [isNickTaken, List.any_eq_false]
    intro p hp
    rcases mem_setA _ _ _ _ hp with hpB | hpold
    · subst hpB
      simp
    · rw [hclients] at hpold
      rcases mem_delA _ _ _ hpold with ⟨hpin, hpne⟩
      rw [hsan]
      simp [huniq p hpin hpne]
  have hsucc := handleRegister_success
    { (handleClose st ws time).state with
        clients := setA (handleClose st ws time).state.clients wsB ⟨idB, none, ipB, false⟩ }
    wsB ⟨idB, none, ipB, false⟩ rawB time2 hfresh rfl
    (by rw [hsan]; exact hl2) (by rw [hsan]; exact hl24) htaken (by rw [hsan]; exact hbad)
  rw [hsucc]
  refine ⟨?_, ?_⟩
  · show [Msg.register_ok (sanitizeNick rawB) idB] = [Msg.register_ok nick idB]
    rw [hsan]
  · show lookupA (setA (setA (handleClose st ws time).state.clients wsB
        ⟨idB, none, ipB, false⟩) wsB ⟨idB, some (sanitizeNick rawB), ipB, true⟩) wsB
      = some ⟨idB, some nick, ipB, true⟩
    rw [hsan]
    exact lookupA_setA_self ..

/-- Two registered sessions (`Alex` on socket 1, `Bob` on socket 2) for the
C9 witness. -/
def stC9 : ServerState where
  conns := [⟨1, true⟩, ⟨2, true⟩]
  clients := [(1, ⟨10, some ("Alex".toList), [], true⟩), (2, ⟨20, some ("Bob".toList), [], true⟩)]
  chatHistory := []
  winHistory := []
  rateLimits := [(10, ⟨3, 0⟩)]

/-- Witness for C9: `Alex` disconnects; the departure message goes to
socket 2 but not socket 1, the session and rate state are gone, and a fresh
session (socket 3, client 30) re-registers `Alex` successfully. -/
theorem claim_C9_disconnect_witness :
    (handleClose stC9 1 []).broadcasts = [(Msg.entry (byeEntryOf ("Alex".toList) []), some 1)]
    ∧ 1 ∉ broadcastRecipients stC9.conns (some 1)
    ∧ 2 ∈ broadcastRecipients stC9.conns (some 1)
    ∧ lookupA (handleClose stC9 1 []).state.clients 1 = none
    ∧ lookupA (handleClose stC9 1 []).state.rateLimits 10 = none
    ∧ (handleRegister { (handleClose stC9 1 []).state with
          clients := setA (handleClose stC9 1 []).state.clients 3 ⟨30, none, [], false⟩ }
        3 (JSVal.str ("Alex".toList)) []).replies = [Msg.register_ok ("Alex".toList) 30] := by
  have h := claim_C9_disconnect stC9 1 ⟨10, some ("Alex".toList), [], true⟩ ("Alex".toList) []
    rfl rfl rfl (by decide)
  refine ⟨h.2.1, h.2.2.1, ?_, h.2.2.2.2.1, h.2.2.2.2.2.1, ?_⟩
  · exact h.2.2.2.1 ⟨2, true⟩ (by decide) rfl (by decide)
  · exact (h.2.2.2.2.2.2 3 30 [] (JSVal.str ("Alex".toList)) [] (by decide) (by decide)
      (by decide) (by decide) (by decide)).1

/- ### Claim C10: accepted chat/win broadcasts exclude no connection -/

theorem handleChat_broadcasts_none (st : ServerState) (ws : Nat) (tv : JSVal)
    (now : Int) (mid : Nat) (time : Str) :
    ∀ b ∈ (handleChat st ws tv now mid time).broadcasts, b.2 = none := by
  unfold handleChat
  split
  · simp
  · split
    · simp
    · dsimp only
      split
      · simp
      · split
        · simp
        · simp

theorem handleWin_broadcasts_none (st : ServerState) (ws : Nat) (av : Option Int)
    (gv : JSVal) (time : Str) :
    ∀ b ∈ (handleWin st ws av gv time).broadcasts, b.2 = none := by
  unfold handleWin
  split
  · simp
  · split
    · simp
    · dsimp only
      split
      · simp
      · split
        · simp
        · simp

theorem handleClose_broadcasts_excl (st : ServerState) (ws : Nat) (time : Str) :
    ∀ b ∈ (handleClose st ws time).broadcasts, b.2 = some ws := by
  unfold handleClose
  split
  · simp
  · split
    · simp
    · simp

/-- C10: every broadcast emitted by an accepted chat or win (including the
big-win system message) carries no excluded connection, so it is delivered
to every open socket — in particular a registered sender with an open socket
receives the echo of its own event; only the close handler's departure
message excludes a socket (the departing one). -/
theorem claim_C10_broadcast_inclusive (st : ServerState) (ws : Nat) (tv : JSVal)
    (now : Int) (mid : Nat) (time : Str) (av : Option Int) (gv : JSVal) :
    (∀ b ∈ (handleChat st ws tv now mid time).broadcasts, b.2 = none)
    ∧ (∀ b ∈ (handleWin st ws av gv time).broadcasts, b.2 = none)
    ∧ (∀ k : Conn, k ∈ st.conns → k.isOpen = true → k.cid ∈ broadcastRecipients st.conns none)
    ∧ (∀ b ∈ (handleClose st ws time).broadcasts, b.2 = some ws) :=
  ⟨handleChat_broadcasts_none st ws tv now mid time,
   handleWin_broadcasts_none st ws av gv time,
   fun k hk hopen => mem_broadcastRecipients st.conns none k hk hopen (by simp),
   handleClose_broadcasts_excl st ws time⟩

/-- Witness for C10 at a concrete accepted chat: the sender (socket 1) is
itself among the recipients of its own message. -/
theorem claim_C10_broadcast_inclusive_witness :
    (handleChat stC8b 1 (JSVal.str ("hi".toList)) 0 99 []).broadcasts
      = [(Msg.entry (Entry.chatE 99 10 (some ("Alex".toList)) ("hi".toList) []), none)]
    ∧ 1 ∈ broadcastRecipients stC8b.conns none := by
  constructor
  · have h := (claim_C10_broadcast_inclusive stC8b 1 (JSVal.str ("hi".toList)) 0 99 []
      (some 1) JSVal.undef).1
    decide
  · exact (claim_C10_broadcast_inclusive stC8b 1 (JSVal.str ("hi".toList)) 0 99 []
      (some 1) JSVal.undef).2.2.1 ⟨1, true⟩ (by decide) rfl

end Mellcazik
